import Mathlib

/-!
# Verification of the MetagenClean data-cleaning pipeline

Shallow embedding of the core pipeline of the MetagenClean repository:
`DataProcessor` (metadata cleaning, SOFT/TXT parsing, missing-data report,
quality recommendations) and `OrganismNormalizer` (organism-name
canonicalization).  Strings are modelled as `List Char` under the hood;
Python/pandas missing values (`NaN`) are modelled as `Option.none`.
Character classes of Python's `str`/`re` (whitespace, word characters,
upper/lower case) are modelled over the character ranges the data actually
uses; percentages are modelled in `ℚ`.
-/

/-! ## Character classes (Python `str.isspace` / `re` `\s`, `\w`, case maps) -/

/-- Python whitespace (`str.isspace`, and what `\s` matches in `re` on `str`). -/
def isPyWs (c : Char) : Bool :=
  c.val = 0x09 || c.val = 0x0a || c.val = 0x0b || c.val = 0x0c || c.val = 0x0d ||
  c.val = 0x1c || c.val = 0x1d || c.val = 0x1e || c.val = 0x1f || c.val = 0x20 ||
  c.val = 0x85 || c.val = 0xa0 || c.val = 0x1680 ||
  (0x2000 ≤ c.val && c.val ≤ 0x200a) || c.val = 0x2028 || c.val = 0x2029 ||
  c.val = 0x202f || c.val = 0x205f || c.val = 0x3000

/-- Word characters (`\w` in `re`), modelled over the ASCII range. -/
def isWordChar (c : Char) : Bool :=
  ('a' ≤ c && c ≤ 'z') || ('A' ≤ c && c ≤ 'Z') || ('0' ≤ c && c ≤ '9') || c = '_'

/-- Control characters removed by `_clean_text_field`:
`[\x00-\x1f\x7f-\x9f]`. -/
def isCtrl (c : Char) : Bool :=
  c.val ≤ 0x1f || (0x7f ≤ c.val && c.val ≤ 0x9f)

/-- A control character that is not Python whitespace (these are the
characters whose removal can merge two whitespace runs). -/
def badCtrl (c : Char) : Bool :=
  isCtrl c && !isPyWs c

/-- ASCII lower-casing, as Python's `str.lower` acts on the ASCII range. -/
def lowerChar (c : Char) : Char :=
  if 'A' ≤ c ∧ c ≤ 'Z' then Char.ofNat (c.toNat + 32) else c

/-- ASCII upper-casing, as Python's `str.upper` acts on the ASCII range. -/
def upperChar (c : Char) : Char :=
  if 'a' ≤ c ∧ c ≤ 'z' then Char.ofNat (c.toNat - 32) else c

/-! ## Python string primitives -/

/-- Drop leading Python whitespace (`str.lstrip`). -/
def pyLStrip (l : List Char) : List Char := l.dropWhile isPyWs

/-- Python `str.strip`: drop leading and trailing whitespace. -/
def pyStrip (l : List Char) : List Char :=
  ((l.dropWhile isPyWs).reverse.dropWhile isPyWs).reverse

/-- `re.sub(r'\s+', ' ', s)`: collapse every whitespace run to one space.
The flag records whether the previous character was whitespace. -/
def collapseWSAux (prevWs : Bool) : List Char → List Char
  | [] => []
  | c :: cs =>
    if isPyWs c then
      if prevWs then collapseWSAux true cs else ' ' :: collapseWSAux true cs
    else c :: collapseWSAux false cs

def collapseWS (l : List Char) : List Char := collapseWSAux false l

/-- `re.sub(r'[\x00-\x1f\x7f-\x9f]', '', s)`: delete control characters. -/
def removeCtrl (l : List Char) : List Char := l.filter (fun c => !isCtrl c)

/-- Python `str.split()` with no argument: split on whitespace runs,
dropping empty fields.  `cur` is the current word, reversed. -/
def pySplitAux (cur : List Char) : List Char → List (List Char)
  | [] => if cur.isEmpty then [] else [cur.reverse]
  | c :: cs =>
    if isPyWs c then
      if cur.isEmpty then pySplitAux [] cs else cur.reverse :: pySplitAux [] cs
    else pySplitAux (c :: cur) cs

def pySplit (l : List Char) : List (List Char) := pySplitAux [] l

/-- Split a character list on every occurrence of a separator character
(Python `str.split(sep)`; empty fields preserved). -/
def splitOnChar (sep : Char) : List Char → List (List Char)
  | [] => [[]]
  | c :: cs =>
    match splitOnChar sep cs with
    | [] => [[c]]
    | r :: rs => if c = sep then [] :: r :: rs else (c :: r) :: rs

/-- Python `str.split(sep, 1)`: split at the first occurrence only;
`none` when the separator does not occur. -/
def splitFirst (sep : Char) : List Char → Option (List Char × List Char)
  | [] => none
  | c :: cs =>
    if c = sep then some ([], cs)
    else (splitFirst sep cs).map (fun p => (c :: p.1, p.2))

/-- Python `str.startswith(pre)`. -/
def pyStartsWith (pre l : List Char) : Bool := pre.isPrefixOf l

/-- Substring test (`pat in s` for Python strings). -/
def isSubstring (pat : List Char) : List Char → Bool
  | [] => pat.isEmpty
  | c :: cs => pat.isPrefixOf (c :: cs) || isSubstring pat cs

/-- Python `str.capitalize()`: first character upper-cased, rest lower-cased. -/
def pyCapitalize (w : List Char) : List Char :=
  match w with
  | [] => []
  | c :: cs => upperChar c :: cs.map lowerChar

example : pyStrip "  a b  ".data = "a b".data := by decide
example : collapseWS "a  \t b".data = "a b".data := by decide
example : splitOnChar '\t' "a\tb\tc".data = ["a".data, "b".data, "c".data] := by decide
example : splitFirst '=' "k = v=w".data = some ("k ".data, " v=w".data) := by decide
example : isSubstring "gsm".data "xgsmy".data = true := by decide
example : isSubstring "gsm".data "gs".data = false := by decide
example : pyCapitalize "xENopus".data = "Xenopus".data := by decide
example : pySplit "  foo  bar ".data = ["foo".data, "bar".data] := by decide

/-! ## Data model: metadata / expression tables

A pandas `DataFrame` of text data is modelled as a column-name list plus a
row list; a cell is `Option String` with `none` standing for `NaN`. -/

/-- One cell of a metadata table: `none` is pandas `NaN`. -/
abbrev Cell := Option String

/-- A flat table (the model of a pandas `DataFrame` of text cells). -/
structure Table where
  cols : List String
  rows : List (List Cell)
  deriving Repr, DecidableEq

/-- Values of a named column (cells aligned positionally with `cols`). -/
def Table.getCol (t : Table) (c : String) : List Cell :=
  match t.cols.indexOf? c with
  | none => []
  | some i => t.rows.map (fun r => (r.get? i).join)

/-- `DataFrame.empty`: true when either axis has length zero. -/
def Table.isEmpty (t : Table) : Bool :=
  t.rows.length = 0 || t.cols.length = 0

/-- Row/column alignment invariant of a pandas `DataFrame`: every row has
exactly one cell per column. -/
def Table.wfRows (t : Table) : Bool :=
  t.rows.all (fun r => r.length = t.cols.length)

/-! ## DataProcessor: cleaning (`clean_metadata` and helpers) -/

/-- `DataProcessor.missing_indicators`, verbatim from `__init__`. -/
def missing_indicators : List String :=
  ["", "null", "NULL", "na", "NA", "n/a", "N/A", "none", "None", "NONE",
   "missing", "Missing", "MISSING", "-", "--", "---", "undefined",
   "Undefined", "UNDEFINED", "unknown", "Unknown", "UNKNOWN"]

/-- Column-name standardization of `clean_metadata`:
`str.lower().str.replace(' ', '_').str.replace('-', '_')`, per character. -/
def normColChar (c : Char) : Char :=
  let c' := lowerChar c
  if c' = ' ' ∨ c' = '-' then '_' else c'

def normalizeColName (s : String) : String := String.mk (s.data.map normColChar)

/-- `_handle_missing_values` on one cell: exact matches of the sentinel
list are replaced by `NaN` (pandas `Series.replace(list, np.nan)`). -/
def handleMissingCell (c : Cell) : Cell :=
  match c with
  | none => none
  | some v => if v ∈ missing_indicators then none else some v

/-- The string transformation of `_clean_text_field`:
strip, collapse `\s+` to a space, delete control characters. -/
def cleanString (s : String) : String :=
  String.mk (removeCtrl (collapseWS (pyStrip s.data)))

/-- `_clean_text_field` on one cell (`NaN` passes through `pd.isna`). -/
def cleanTextCell (c : Cell) : Cell :=
  match c with
  | none => none
  | some v => some (cleanString v)

/-- The per-cell effect of `clean_metadata`: missing-value standardization
followed by text cleaning (every column of a metadata table is an object
column). -/
def cellClean (c : Cell) : Cell := cleanTextCell (handleMissingCell c)

/-- A row that `dropna(how='all')` removes: every cell missing. -/
def rowAllNa (r : List Cell) : Bool := r.all Option.isNone

/-- `drop_duplicates` (keep the first occurrence), with the already-seen
rows accumulated in `seen`. -/
def dropDupAux (seen : List (List Cell)) : List (List Cell) → List (List Cell)
  | [] => []
  | r :: rs =>
    if r ∈ seen then dropDupAux seen rs
    else r :: dropDupAux (r :: seen) rs

def dropDuplicates (rows : List (List Cell)) : List (List Cell) :=
  dropDupAux [] rows

/-- `DataProcessor.clean_metadata`: standardize column names, standardize
missing values, clean text fields, drop all-missing rows, drop exact
duplicate rows. -/
def clean_metadata (t : Table) : Table :=
  { cols := t.cols.map normalizeColName
    rows := dropDuplicates
      (((t.rows.map (fun r => r.map cellClean)).filter (fun r => !rowAllNa r))) }

example : cleanString " a\t\tb " = "a b" := by decide
example : normalizeColName "Sample ID-x" = "sample_id_x" := by decide
example : cellClean (some "N/A") = none := by decide
example :
    clean_metadata { cols := ["A"], rows := [[some " x  y "], [some "x y"], [none]] } =
      { cols := ["a"], rows := [[some "x y"]] } := by decide

/-! ## OrganismNormalizer

`organism_mappings` and `organism_patterns` transcribed from
`OrganismNormalizer.__init__`; the regex patterns all have the shape
`\b(alt₁|alt₂|alt₃)\b` where every alternative is a sequence of literal
characters, `\.` (literal dot), `\s+` and `\s*`, and every alternative
starts and ends with a word character, so a small dedicated matcher is an
exact model of `re.search` on them (the input is already lower-cased, so
`re.IGNORECASE` has no further effect on these lower-case literals). -/

/-- `OrganismNormalizer.organism_mappings` (insertion order preserved). -/
def organism_mappings : List (String × String) :=
  [("human", "Homo sapiens"),
   ("h. sapiens", "Homo sapiens"),
   ("homo sapiens", "Homo sapiens"),
   ("h.sapiens", "Homo sapiens"),
   ("homo_sapiens", "Homo sapiens"),
   ("hsa", "Homo sapiens"),
   ("hsapiens", "Homo sapiens"),
   ("mouse", "Mus musculus"),
   ("m. musculus", "Mus musculus"),
   ("mus musculus", "Mus musculus"),
   ("m.musculus", "Mus musculus"),
   ("mus_musculus", "Mus musculus"),
   ("mmu", "Mus musculus"),
   ("mmusculus", "Mus musculus"),
   ("rat", "Rattus norvegicus"),
   ("r. norvegicus", "Rattus norvegicus"),
   ("rattus norvegicus", "Rattus norvegicus"),
   ("r.norvegicus", "Rattus norvegicus"),
   ("rattus_norvegicus", "Rattus norvegicus"),
   ("rno", "Rattus norvegicus"),
   ("rnorvegicus", "Rattus norvegicus"),
   ("zebrafish", "Danio rerio"),
   ("d. rerio", "Danio rerio"),
   ("danio rerio", "Danio rerio"),
   ("d.rerio", "Danio rerio"),
   ("danio_rerio", "Danio rerio"),
   ("dre", "Danio rerio"),
   ("drerio", "Danio rerio"),
   ("fruit fly", "Drosophila melanogaster"),
   ("fruitfly", "Drosophila melanogaster"),
   ("d. melanogaster", "Drosophila melanogaster"),
   ("drosophila melanogaster", "Drosophila melanogaster"),
   ("d.melanogaster", "Drosophila melanogaster"),
   ("drosophila_melanogaster", "Drosophila melanogaster"),
   ("dme", "Drosophila melanogaster"),
   ("dmelanogaster", "Drosophila melanogaster"),
   ("c. elegans", "Caenorhabditis elegans"),
   ("caenorhabditis elegans", "Caenorhabditis elegans"),
   ("c.elegans", "Caenorhabditis elegans"),
   ("caenorhabditis_elegans", "Caenorhabditis elegans"),
   ("cel", "Caenorhabditis elegans"),
   ("celegans", "Caenorhabditis elegans"),
   ("worm", "Caenorhabditis elegans"),
   ("yeast", "Saccharomyces cerevisiae"),
   ("s. cerevisiae", "Saccharomyces cerevisiae"),
   ("saccharomyces cerevisiae", "Saccharomyces cerevisiae"),
   ("s.cerevisiae", "Saccharomyces cerevisiae"),
   ("saccharomyces_cerevisiae", "Saccharomyces cerevisiae"),
   ("sce", "Saccharomyces cerevisiae"),
   ("scerevisiae", "Saccharomyces cerevisiae"),
   ("arabidopsis", "Arabidopsis thaliana"),
   ("a. thaliana", "Arabidopsis thaliana"),
   ("arabidopsis thaliana", "Arabidopsis thaliana"),
   ("a.thaliana", "Arabidopsis thaliana"),
   ("arabidopsis_thaliana", "Arabidopsis thaliana"),
   ("ath", "Arabidopsis thaliana"),
   ("athaliana", "Arabidopsis thaliana")]

/-- A token of one regex alternative: a literal character, `\s+`, or `\s*`. -/
inductive RTok where
  | lit (c : Char)
  | wsPlus
  | wsStar
  deriving Repr, DecidableEq

/-- One alternative: a token sequence.  A pattern `\b(a|b|c)\b` is the list
of its alternatives. -/
abbrev RAlt := List RTok

/-- Literal token sequence from a plain string. -/
def rlits (s : String) : RAlt := s.data.map RTok.lit

/-- Match one alternative at the head of `l`, returning the remainder.
`\s+`/`\s*` consume greedily; in all patterns below the following token is
a non-whitespace literal, so greedy matching without backtracking agrees
with `re`. -/
def matchAlt : RAlt → List Char → Option (List Char)
  | [], l => some l
  | RTok.lit c :: ts, x :: l => if x = c then matchAlt ts l else none
  | RTok.lit _ :: _, [] => none
  | RTok.wsPlus :: ts, x :: l =>
      if isPyWs x then matchAlt ts (l.dropWhile isPyWs) else none
  | RTok.wsPlus :: _, [] => none
  | RTok.wsStar :: ts, l => matchAlt ts (l.dropWhile isPyWs)

/-- Does some alternative match at this position, with word boundaries on
both sides?  `prev` is the character before the position (if any); every
alternative starts and ends with a word character, so `\b` holds exactly
when the neighbouring character (if present) is not a word character. -/
def altsMatchAt (alts : List RAlt) (prev : Option Char) (l : List Char) : Bool :=
  alts.any (fun alt =>
    match matchAlt alt l with
    | some rest =>
      (match prev with | none => true | some c => !isWordChar c) &&
      (match rest.head? with | none => true | some c => !isWordChar c)
    | none => false)

/-- `re.search` for a `\b(alt|…)\b` pattern: try every start position. -/
def regexSearchAux (alts : List RAlt) (prev : Option Char) : List Char → Bool
  | [] => altsMatchAt alts prev []
  | c :: l => altsMatchAt alts prev (c :: l) || regexSearchAux alts (some c) l

def regexSearch (alts : List RAlt) (s : String) : Bool :=
  regexSearchAux alts none s.data

/-- `OrganismNormalizer.organism_patterns`, in declared order.  Each entry
is the alternative list of the source pattern `\b(…)\b`. -/
def organism_patterns : List (List RAlt × String) :=
  [([rlits "homo" ++ [RTok.wsPlus] ++ rlits "sapiens",
     rlits "h." ++ [RTok.wsStar] ++ rlits "sapiens",
     rlits "human"], "Homo sapiens"),
   ([rlits "mus" ++ [RTok.wsPlus] ++ rlits "musculus",
     rlits "m." ++ [RTok.wsStar] ++ rlits "musculus",
     rlits "mouse"], "Mus musculus"),
   ([rlits "rattus" ++ [RTok.wsPlus] ++ rlits "norvegicus",
     rlits "r." ++ [RTok.wsStar] ++ rlits "norvegicus",
     rlits "rat"], "Rattus norvegicus"),
   ([rlits "danio" ++ [RTok.wsPlus] ++ rlits "rerio",
     rlits "d." ++ [RTok.wsStar] ++ rlits "rerio",
     rlits "zebrafish"], "Danio rerio"),
   ([rlits "drosophila" ++ [RTok.wsPlus] ++ rlits "melanogaster",
     rlits "d." ++ [RTok.wsStar] ++ rlits "melanogaster",
     rlits "fruit" ++ [RTok.wsStar] ++ rlits "fly"], "Drosophila melanogaster"),
   ([rlits "caenorhabditis" ++ [RTok.wsPlus] ++ rlits "elegans",
     rlits "c." ++ [RTok.wsStar] ++ rlits "elegans",
     rlits "worm"], "Caenorhabditis elegans"),
   ([rlits "saccharomyces" ++ [RTok.wsPlus] ++ rlits "cerevisiae",
     rlits "s." ++ [RTok.wsStar] ++ rlits "cerevisiae",
     rlits "yeast"], "Saccharomyces cerevisiae"),
   ([rlits "arabidopsis" ++ [RTok.wsPlus] ++ rlits "thaliana",
     rlits "a." ++ [RTok.wsStar] ++ rlits "thaliana",
     rlits "arabidopsis"], "Arabidopsis thaliana")]

/-- The cleaning step of `normalize_organism_name`: strip + lower-case,
collapse whitespace, replace every character that is not a word character,
whitespace or a literal dot by a space, strip again. -/
def clean_organism (s : String) : String :=
  let c1 := (pyStrip s.data).map lowerChar
  let c2 := collapseWS c1
  let c3 := c2.map (fun c => if isWordChar c || isPyWs c || c = '.' then c else ' ')
  String.mk (pyStrip c3)

/-- The taxonomic particles kept lower-case by `_capitalize_organism_name`. -/
def organism_particles : List String := ["sp.", "var.", "subsp.", "cf."]

/-- The indexed word loop of `_capitalize_organism_name`. -/
def capWords (i : Nat) : List (List Char) → List (List Char)
  | [] => []
  | w :: ws =>
    (if i = 0 ∨ String.mk (w.map lowerChar) ∉ organism_particles
     then pyCapitalize w else w.map lowerChar) :: capWords (i + 1) ws

/-- `OrganismNormalizer._capitalize_organism_name`. -/
def capitalize_organism_name (s : String) : String :=
  if s = "" then s
  else String.mk (List.intercalate [' '] (capWords 0 (pySplit (pyStrip s.data))))

/-- The `for pattern in patterns` loop of `normalize_organism_name`:
return the canonical name of the first pattern that matches. -/
def firstPatternMatch : List (List RAlt × String) → String → Option String
  | [], _ => none
  | (p, nm) :: rest, c =>
    if regexSearch p c then some nm else firstPatternMatch rest c

/-- `OrganismNormalizer.normalize_organism_name` (for string inputs; the
`pd.isna` branch concerns non-string `NaN` inputs, outside this model). -/
def normalize_organism_name (organism : String) : String :=
  if organism = "" then organism
  else
    let c := clean_organism organism
    match List.lookup c organism_mappings with
    | some v => v
    | none =>
      match firstPatternMatch organism_patterns c with
      | some v => v
      | none => capitalize_organism_name organism

example : normalize_organism_name "human" = "Homo sapiens" := by decide
example : normalize_organism_name "H. Sapiens" = "Homo sapiens" := by decide
example : normalize_organism_name "Mus_musculus" = "Mus musculus" := by decide
example : normalize_organism_name "" = "" := by decide
example : normalize_organism_name "xenopus laevis" = "Xenopus Laevis" := by decide
example : normalize_organism_name "the homo  sapiens cell line" = "Homo sapiens" := by decide
example : normalize_organism_name "strata" = "Strata" := by decide

/-! ## DataProcessor: file parsing (`_parse_soft_file`, `_parse_txt_file`) -/

/-- An in-progress sample record of the SOFT parser: a Python dict modelled
as an association list in insertion order. -/
abbrev Record := List (String × String)

/-- Python dict assignment `d[k] = v`: overwrite in place when the key
exists, else append. -/
def dictInsert (r : Record) (k v : String) : Record :=
  if r.any (fun p => p.1 = k) then
    r.map (fun p => if p.1 = k then (k, v) else p)
  else r ++ [(k, v)]

/-- `parts[0].replace('!Sample_', '')`: remove every occurrence of the
8-character string `!Sample_`. -/
def removeSamplePrefix : List Char → List Char
  | '!' :: 'S' :: 'a' :: 'm' :: 'p' :: 'l' :: 'e' :: '_' :: rest => removeSamplePrefix rest
  | c :: cs => c :: removeSamplePrefix cs
  | [] => []

/-- `pd.DataFrame(list-of-dicts)`: columns are the union of the record
keys in first-seen order; a field absent from a record becomes `NaN`. -/
def unionKeys : List Record → List String :=
  List.foldl (fun acc r => acc ++ ((r.map Prod.fst).filter (fun k => !acc.contains k))) []

def dfOfRecords (rs : List Record) : Table :=
  let cols := unionKeys rs
  { cols := cols, rows := rs.map (fun r => cols.map (fun k => List.lookup k r)) }

/-- An expression matrix: a pandas `DataFrame` with a row index.  Cell
values are kept as the raw text fields (numeric dtype inference is not
modelled; no claim depends on cell values). -/
structure ExprTable where
  indexName : Option String
  index : List String
  cols : List String
  rows : List (List String)
  deriving Repr, DecidableEq

/-- `if current_sample: metadata_list.append(current_sample)` (an empty
dict is falsy). -/
def softFlush (acc : List Record) (cur : Record) : List Record :=
  if cur.isEmpty then acc else acc ++ [cur]

/-- The line loop of `_parse_soft_file`.  `none` models the uncaught
`IndexError` of `line.split('=')[1]` on a `^SAMPLE` line without `=`. -/
def softGo : List (List Char) → List Record → Record → Bool → Option (List Record)
  | [], acc, cur, _ => some (softFlush acc cur)
  | l :: ls, acc, cur, inS =>
    let line := pyStrip l
    if pyStartsWith "^SAMPLE".data line then
      match splitOnChar '=' line with
      | _ :: seg :: _ =>
        softGo ls (softFlush acc cur) [("sample_id", String.mk (pyStrip seg))] true
      | _ => none
    else if pyStartsWith "!Sample_".data line then
      match splitFirst '=' line with
      | some (k, v) =>
        if inS then
          softGo ls acc
            (dictInsert cur (String.mk ((removeSamplePrefix k).map lowerChar))
              (String.mk (pyStrip v))) inS
        else softGo ls acc cur inS
      | none => softGo ls acc cur inS
    else if pyStartsWith "!sample_table_begin".data line then
      some (softFlush acc cur)
    else softGo ls acc cur inS

/-- `DataProcessor._parse_soft_file`: expression data is never parsed from
SOFT content (the result's second component is always `None`). -/
def parse_soft (content : String) : Option (Table × Option ExprTable) :=
  (softGo (splitOnChar '\n' content.data) [] [] false).map
    (fun recs => (dfOfRecords recs, none))

/-- The metadata heuristic of `_parse_txt_file`: some column name
lower-cases to `sample_id`, or some lower-cased column name contains
`gsm`. -/
def txtIsMetadata (cols : List String) : Bool :=
  cols.any (fun c => String.mk (c.data.map lowerChar) = "sample_id") ||
  cols.any (fun c => isSubstring "gsm".data (c.data.map lowerChar))

/-- `pd.read_csv(..., sep='\t')`, restricted to the fragment the claims
exercise: first line is the header, remaining lines are rows, fields are
tab-separated text.  (`read_csv` mangles duplicate header names, so header
names are pairwise distinct; blank-line skipping and numeric dtype
inference are not modelled.)  `none` models a parse failure on empty
content. -/
def read_csv_tab (content : String) : Option (List String × List (List String)) :=
  if content.data.isEmpty then none
  else
    match (splitOnChar '\n' content.data).map (splitOnChar '\t') with
    | [] => none
    | header :: dataRows =>
      some (header.map String.mk, dataRows.map (fun r => r.map String.mk))

/-- `DataProcessor._parse_txt_file`. -/
def parse_txt (content : String) : Option (Table × Option ExprTable) :=
  match read_csv_tab content with
  | none => none
  | some (cols, rows) =>
    if txtIsMetadata cols then
      some ({ cols := cols, rows := rows.map (fun r => r.map some) }, none)
    else
      match cols with
      | [] => none
      | c0 :: rest =>
        some (dfOfRecords (rest.map (fun c => [("sample_id", c), ("source", "uploaded_file")])),
          some { indexName := some c0
                 index := rows.map (fun r => r.headD "")
                 cols := rest
                 rows := rows.map (fun r => r.tail) })

example :
    parse_soft "^SAMPLE = GSM1\n!Sample_title = A" =
      some ({ cols := ["sample_id", "title "],
              rows := [[some "GSM1", some "A"]] }, none) := by decide
example :
    parse_txt "ProbeID\tS1\tS2\ng1\t1.0\t2.0" =
      some ({ cols := ["sample_id", "source"],
              rows := [[some "S1", some "uploaded_file"], [some "S2", some "uploaded_file"]] },
        some { indexName := some "ProbeID", index := ["g1"],
               cols := ["S1", "S2"], rows := [["1.0", "2.0"]] }) := by decide

/-! ## DataProcessor: missing-data report and quality recommendations

Percentages and rates are modelled in `ℚ` (the Python code computes them
in floating point; the claims are about the exact formulas). -/

/-- Number of missing cells in a table (`df.isnull().sum().sum()`). -/
def tableMissing (t : Table) : Nat :=
  (t.rows.map (fun r => (r.filter Option.isNone).length)).sum

/-- Total cell count (`len(df) * len(df.columns)`). -/
def tableTotal (t : Table) : Nat := t.rows.length * t.cols.length

/-- Per-column missing counts (`df.isnull().sum().to_dict()`), in column
order. -/
def colMissing (t : Table) : List (String × Nat) :=
  (List.range t.cols.length).map (fun i =>
    (t.cols.getD i "",
     (t.rows.filter (fun r => (r.getD i none).isNone)).length))

/-- The `metadata_missing` / `expression_missing` sub-dicts of the report. -/
structure MissingInfo where
  total_cells : Nat
  missing_cells : Nat
  missing_percentage : ℚ
  by_column : List (String × Nat)
  deriving Repr, DecidableEq

/-- The report dict of `generate_missing_data_report`.  The two sub-dicts
are `Option`s: `none` models the `{}` left in place when the corresponding
table is absent or empty. -/
structure MissingReport where
  metadata_missing : Option MissingInfo
  expression_missing : Option MissingInfo
  total_missing : Nat
  completion_rate : ℚ
  missing_by_column : List (String × Nat)
  deriving Repr, DecidableEq

/-- `DataProcessor.generate_missing_data_report`. -/
def generate_missing_data_report (metadata : Table) (expression : Option Table) :
    MissingReport :=
  let metaPart : Option MissingInfo :=
    if !metadata.isEmpty then
      some { total_cells := tableTotal metadata
             missing_cells := tableMissing metadata
             missing_percentage :=
               if tableTotal metadata > 0 then
                 (tableMissing metadata : ℚ) / (tableTotal metadata : ℚ) * 100
               else 0
             by_column := colMissing metadata }
    else none
  let byColumn := match metaPart with
    | some i => i.by_column
    | none => []
  let totalMissing₁ := match metaPart with
    | some i => i.missing_cells
    | none => 0
  let exprPart : Option MissingInfo :=
    match expression with
    | some e =>
      if !e.isEmpty then
        some { total_cells := tableTotal e
               missing_cells := tableMissing e
               missing_percentage :=
                 if tableTotal e > 0 then
                   (tableMissing e : ℚ) / (tableTotal e : ℚ) * 100
                 else 0
               by_column := (colMissing e).take 20 }
      else none
    | none => none
  let totalMissing : Nat := totalMissing₁ + (match exprPart with
    | some i => i.missing_cells
    | none => 0)
  let totalCells : Nat := (match metaPart with | some i => i.total_cells | none => 0) +
    (match exprPart with | some i => i.total_cells | none => 0)
  { metadata_missing := metaPart
    expression_missing := exprPart
    total_missing := totalMissing
    completion_rate :=
      if totalCells > 0 then
        ((totalCells : ℚ) - (totalMissing : ℚ)) / (totalCells : ℚ) * 100
      else 0
    missing_by_column := byColumn }

/-- The quality-tier messages of `generate_quality_recommendations`. -/
def msgExcellent : String := "✅ Excellent data quality! Missing data is minimal."
def msgGood : String := "✅ Good data quality. Some missing values present but manageable."
def msgModerate : String := "⚠️ Moderate data quality. Consider imputation strategies for missing values."
def msgPoor : String := "❌ Poor data quality. Significant missing data may impact analysis."

/-- `high_missing_columns`: the columns of the report whose missing count
is positive, in report order. -/
def high_missing_columns (r : MissingReport) : List String :=
  (r.missing_by_column.filter (fun p => 0 < p.2)).map Prod.fst

/-- `DataProcessor.generate_quality_recommendations`. -/
def generate_quality_recommendations (r : MissingReport) : List String :=
  let tier :=
    if r.completion_rate ≥ 95 then msgExcellent
    else if r.completion_rate ≥ 85 then msgGood
    else if r.completion_rate ≥ 70 then msgModerate
    else msgPoor
  let hmc := high_missing_columns r
  let recs := [tier]
  let recs := recs ++
    (if !hmc.isEmpty then
      ["📊 Columns with missing data: " ++ String.intercalate ", " (hmc.take 5)] ++
      (if hmc.length > 5 then
        ["📊 And " ++ toString (hmc.length - 5) ++ " more columns with missing data."]
      else [])
    else [])
  recs ++
    (if r.missing_by_column.any (fun p =>
        isSubstring "organism".data (p.1.data.map lowerChar)) then
      ["🧬 Organism information has missing values. Consider manual curation for better analysis."]
    else [])

example :
    (generate_missing_data_report
      { cols := ["a", "b"], rows := [[some "x", none], [none, none]] } none).total_missing
    = 3 := by decide
example :
    (generate_missing_data_report
      { cols := ["a", "b"], rows := [[some "x", none], [none, none]] } none).missing_by_column
    = [("a", 1), ("b", 2)] := by decide
example :
    (generate_missing_data_report
      { cols := ["a", "b"], rows := [[some "x", none], [none, none]] } none).completion_rate
    = 25 := by
  simp only [generate_missing_data_report, tableMissing, tableTotal, Table.isEmpty, colMissing]
  norm_num

example :
    generate_quality_recommendations
      { metadata_missing := none, expression_missing := none, total_missing := 0,
        completion_rate := 96, missing_by_column := [("organism", 0)] } =
      [msgExcellent,
       "🧬 Organism information has missing values. Consider manual curation for better analysis."] := by
  decide

/-! ## DataProcessor: accession-object extraction (`_extract_gse_data`,
`_extract_gds_data`)

GEOparse objects are duck-typed nested records; their metadata is a dict
from key to list of strings, modelled as an association list.  A step of
the Python code that can raise is modelled with `Except`; the
`try/except` around expression extraction becomes a `match` discarding the
error. -/

abbrev GeoMeta := List (String × List String)

/-- `meta.get(key, [''])[0]`.  (On a key bound to an *empty* list Python
would raise `IndexError`; the well-formedness hypothesis `geoMetaWf` used
by the theorems below rules that input out.) -/
def getFirst (m : GeoMeta) (k : String) : String :=
  match List.lookup k m with
  | some l => l.headD ""
  | none => ""

/-- `meta.get(key, [])`. -/
def getList (m : GeoMeta) (k : String) : List String :=
  (List.lookup k m).getD []

/-- `' | '.join(value) if value else ''` (the join of `[]` is `''`). -/
def joinPipe (l : List String) : String := String.intercalate " | " l

/-- Every metadata value list is non-empty, so `[0]` never raises. -/
def geoMetaWf (m : GeoMeta) : Bool := m.all (fun p => !p.2.isEmpty)

/-- The `for key, value in …metadata.items()` overlay loop: keys not
already in the record are appended, list values joined with `' | '`
(every value of a GEOparse metadata dict is a list of strings). -/
def addExtras (rec : Record) (m : GeoMeta) : Record :=
  m.foldl (fun r p =>
    if r.any (fun q => q.1 = p.1) then r else r ++ [(p.1, joinPipe p.2)]) rec

/-- A raw per-sample or dataset table (`gsm.table` / `gds.table`): column
names plus text rows (numeric dtypes are not modelled; no claim depends on
cell values). -/
structure SampleTable where
  cols : List String
  rows : List (List String)
  deriving Repr, DecidableEq

/-- One sample (`GSM`) of a series object.  `table = none` models a
missing/`None` table. -/
structure GSM where
  metadata : GeoMeta
  table : Option SampleTable
  deriving Repr, DecidableEq

/-- A Shape-B ("series-with-samples") object.  `pivot` models
`hasattr(gse, 'pivot_samples')` plus the outcome of calling it:
`none` = attribute absent, `some (.error e)` = the call raised. -/
structure GSE where
  gsms : List (String × GSM)
  pivot : Option (Except String ExprTable)
  deriving Repr

/-- A Shape-A ("dataset-with-subsets") subset. -/
structure GDSSubset where
  metadata : GeoMeta
  deriving Repr, DecidableEq

/-- A Shape-A object.  `table` models `hasattr(gds, 'table') and gds.table
is not None` plus the outcome of accessing it: `none` = absent or `None`,
`some (.error e)` = the access raised. -/
structure GDS where
  name : String
  metadata : GeoMeta
  subsets : List (String × GDSSubset)
  table : Option (Except String SampleTable)
  deriving Repr

/-- The fixed `sample_data` record of `_extract_gse_data`. -/
def gse_sample_record (nm : String) (gsm : GSM) : Record :=
  let m := gsm.metadata
  addExtras
    [("sample_id", nm),
     ("title", getFirst m "title"),
     ("organism", getFirst m "organism_ch1"),
     ("source_name", getFirst m "source_name_ch1"),
     ("characteristics", joinPipe (getList m "characteristics_ch1")),
     ("treatment", getFirst m "treatment_protocol_ch1"),
     ("growth_protocol", getFirst m "growth_protocol_ch1"),
     ("extract_protocol", getFirst m "extract_protocol_ch1"),
     ("label_protocol", getFirst m "label_protocol_ch1"),
     ("hyb_protocol", getFirst m "hyb_protocol"),
     ("scan_protocol", getFirst m "scan_protocol"),
     ("description", getFirst m "description"),
     ("data_processing", joinPipe (getList m "data_processing")),
     ("platform_id", getFirst m "platform_id"),
     ("contact_name", getFirst m "contact_name"),
     ("contact_email", getFirst m "contact_email"),
     ("contact_institute", getFirst m "contact_institute"),
     ("submission_date", getFirst m "submission_date"),
     ("last_update_date", getFirst m "last_update_date")] m

/-- The metadata table of `_extract_gse_data`. -/
def gse_metadata (g : GSE) : Table :=
  dfOfRecords (g.gsms.map (fun p => gse_sample_record p.1 p.2))

/-- `sample_table.set_index('ID_REF')['VALUE']`: fails (KeyError) when the
table has no `ID_REF` column. -/
def set_index_value (t : SampleTable) : Except String (List (String × String)) :=
  match t.cols.indexOf? "ID_REF" with
  | none => Except.error "KeyError: ID_REF"
  | some i =>
    match t.cols.indexOf? "VALUE" with
    | none => Except.error "KeyError: VALUE"
    | some j => Except.ok (t.rows.map (fun r => (r.getD i "", r.getD j "")))

/-- The per-sample fallback loop of `_extract_gse_data`: samples without a
table or without a `VALUE` column are skipped silently; a raised KeyError
aborts the whole `try` block. -/
def collectSamples : List (String × GSM) → Except String (List (String × List (String × String)))
  | [] => Except.ok []
  | (nm, gsm) :: rest =>
    match gsm.table with
    | none => collectSamples rest
    | some t =>
      if t.cols.contains "VALUE" then
        match set_index_value t with
        | Except.ok s => (collectSamples rest).map (fun l => (nm, s) :: l)
        | Except.error e => Except.error e
      else collectSamples rest

/-- `pd.concat(sample_tables, axis=1)`: one column per sample series.
(The claims do not depend on the row order of the concatenated frame;
indices are united in first-seen order, absent entries are missing.) -/
def concatSeries (ss : List (String × List (String × String))) : ExprTable :=
  let idx := ss.foldl (fun acc s =>
    acc ++ ((s.2.map Prod.fst).filter (fun i => !acc.contains i))) []
  { indexName := some "ID_REF"
    index := idx
    cols := ss.map Prod.fst
    rows := idx.map (fun i => ss.map (fun s => (List.lookup i s.2).getD "")) }

/-- The expression-extraction `try` block of `_extract_gse_data`:
prefer `pivot_samples('VALUE')`, else concatenate per-sample `VALUE`
series; `.error` is a raised exception. -/
def gse_expression_attempt (g : GSE) : Except String (Option ExprTable) :=
  match g.pivot with
  | some r => r.map some
  | none =>
    if g.gsms.length > 0 then
      (collectSamples g.gsms).map
        (fun ts => if ts.isEmpty then none else some (concatSeries ts))
    else Except.ok none

/-- `DataProcessor._extract_gse_data`: the `except` clause downgrades a
raised exception to a warning and sets the expression result to `None`. -/
def extract_gse_data (g : GSE) : Table × Option ExprTable :=
  (gse_metadata g,
   match gse_expression_attempt g with
   | Except.ok e => e
   | Except.error _ => none)

/-- The fixed `sample_data` record of `_extract_gds_data`. -/
def gds_sample_record (d : GDS) (nm : String) (sub : GDSSubset) : Record :=
  let sm := sub.metadata
  addExtras
    [("sample_id", nm),
     ("title", getFirst sm "description"),
     ("organism", getFirst d.metadata "sample_organism"),
     ("source_name", getFirst sm "type"),
     ("characteristics", getFirst sm "description"),
     ("dataset_id", d.name),
     ("platform_id", getFirst d.metadata "platform"),
     ("submission_date", getFirst d.metadata "date"),
     ("description", joinPipe (getList d.metadata "summary")),
     ("contact_name", joinPipe (getList d.metadata "contributor")),
     ("dataset_type", getFirst d.metadata "type"),
     ("value_type", getFirst d.metadata "value_type"),
     ("reference_series", getFirst d.metadata "reference_series"),
     ("pubmed_id", joinPipe (getList d.metadata "pubmed_id"))] sm

/-- The metadata table of `_extract_gds_data`. -/
def gds_metadata (d : GDS) : Table :=
  dfOfRecords (d.subsets.map (fun p => gds_sample_record d p.1 p.2))

/-- `expression_data.set_index('ID_REF') if 'ID_REF' in columns`: move the
`ID_REF` column into the index, else keep the default integer index. -/
def gds_table_to_expr (t : SampleTable) : ExprTable :=
  match t.cols.indexOf? "ID_REF" with
  | none =>
    { indexName := none, index := (List.range t.rows.length).map toString,
      cols := t.cols, rows := t.rows }
  | some i =>
    { indexName := some "ID_REF"
      index := t.rows.map (fun r => r.getD i "")
      cols := t.cols.eraseIdx i
      rows := t.rows.map (fun r => r.eraseIdx i) }

/-- The expression-extraction `try` block of `_extract_gds_data`. -/
def gds_expression_attempt (d : GDS) : Except String (Option ExprTable) :=
  match d.table with
  | none => Except.ok none
  | some (Except.error e) => Except.error e
  | some (Except.ok t) => Except.ok (some (gds_table_to_expr t))

/-- `DataProcessor._extract_gds_data`: a raised exception in the
expression block is downgraded to a warning, leaving the expression
result `None`. -/
def extract_gds_data (d : GDS) : Table × Option ExprTable :=
  (gds_metadata d,
   match gds_expression_attempt d with
   | Except.ok e => e
   | Except.error _ => none)

example :
    extract_gse_data
      { gsms := [("GSM9", { metadata := [("title", ["T"])], table := none })],
        pivot := some (Except.error "pivot failed") } =
      ({ cols := ["sample_id", "title", "organism", "source_name", "characteristics",
                  "treatment", "growth_protocol", "extract_protocol", "label_protocol",
                  "hyb_protocol", "scan_protocol", "description", "data_processing",
                  "platform_id", "contact_name", "contact_email", "contact_institute",
                  "submission_date", "last_update_date"],
          rows := [[some "GSM9", some "T", some "", some "", some "", some "", some "",
                    some "", some "", some "", some "", some "", some "", some "",
                    some "", some "", some "", some "", some ""]] }, none) := by decide

/-! ## Concrete instances used by the claims -/

/-- The two-sample SOFT file of the claim. -/
def c5_input : String :=
  "^SAMPLE = GSM1\n!Sample_title = A\n^SAMPLE = GSM2\n!Sample_title = B"

/-- What `_parse_soft_file` actually produces on `c5_input`. -/
def c5_table : Table :=
  { cols := ["sample_id", "title "],
    rows := [[some "GSM1", some "A"], [some "GSM2", some "B"]] }

/-- A table in which two distinct rows sharing `sample_id = GSM1`
both survive `clean_metadata` (only exact-duplicate rows are removed), so
the `sample_id` column is not unique after cleaning (used by C1). -/
def c1_dup_table : Table :=
  { cols := ["sample_id", "title"],
    rows := [[some "GSM1", some "A"], [some "GSM1", some "B"]] }

def c1_witness_table : Table := { cols := ["Sample ID"], rows := [[some "GSM1"]] }


/-- Witness tables for the missing-data report formulas (C7). -/
def c7_meta : Table := { cols := ["a", "b"], rows := [[some "x", none], [none, none]] }

def c7_expr : Table := { cols := ["S1"], rows := [[none], [some "1.5"]] }

/-- A Shape-B object whose `pivot_samples('VALUE')` call raises (C9). -/
def c9_gse : GSE :=
  { gsms := [("GSM1", { metadata := [("title", ["t1"]), ("organism_ch1", ["human"])],
                        table := some { cols := ["VALUE"], rows := [["1.0"]] } })],
    pivot := some (Except.error "pivot failed") }

/-- A Shape-B object without `pivot_samples` whose per-sample table has a
`VALUE` column but no `ID_REF` column, so `set_index('ID_REF')` raises (C9). -/
def c9_gse_keyerror : GSE :=
  { gsms := [("GSM2", { metadata := [("title", ["t2"])],
                        table := some { cols := ["VALUE"], rows := [["2.0"]] } })],
    pivot := none }

/-- A Shape-A object whose expression-table access raises (C9). -/
def c9_gds : GDS :=
  { name := "GDS1"
    metadata := [("sample_organism", ["human"]), ("summary", ["s"])]
    subsets := [("GDS1_1", { metadata := [("description", ["d"]), ("type", ["age"])] })]
    table := some (Except.error "table access failed") }

/-- Tab/newline-joined file content (the inverse image of the tabular
parse): one list of fields per line. -/
def mkTxtContent (rows : List (List (List Char))) : String :=
  String.mk (List.intercalate ['\n'] (rows.map (List.intercalate ['\t'])))

/-- Side condition for idempotence of `clean_metadata` on a cell: the
value contains no control character outside the whitespace range (whose
removal could merge two whitespace runs), and unless the value is itself
a missing sentinel, its cleaned form is not one either (otherwise the
second pass nulls it). -/
def cellOk (c : Cell) : Bool :=
  match c with
  | none => true
  | some v =>
      v.data.all (fun ch => !badCtrl ch) &&
      (decide (v ∈ missing_indicators) || !decide (cleanString v ∈ missing_indicators))

/-- A table on which `clean_metadata` is not idempotent: `" na "` cleans
to the sentinel `"na"`, which the second pass replaces by `NaN` and then
drops the all-missing row (used by C2). -/
def c2_table : Table := { cols := ["a"], rows := [[some " na "]] }

/-- A table inside the idempotence domain of `clean_metadata` (C2). -/
def c2_ok_table : Table :=
  { cols := ["Organism Name"], rows := [[some " Homo  sapiens "], [none]] }

/-! ## Helper lemmas -/

theorem toNat_ofNat_valid (n : Nat) (h : n.isValidChar) : (Char.ofNat n).toNat = n := by
  unfold Char.ofNat
  rw [dif_pos h]
  rfl

theorem lowerChar_idem (c : Char) : lowerChar (lowerChar c) = lowerChar c := by
  unfold lowerChar
  by_cases h : 'A' ≤ c ∧ c ≤ 'Z'
  · rw [if_pos h]
    have h65 : ('A' : Char).toNat ≤ c.toNat := h.1
    have h90 : c.toNat ≤ ('Z' : Char).toNat := h.2
    have hA : ('A' : Char).toNat = 65 := by decide
    have hZ : ('Z' : Char).toNat = 90 := by decide
    have hv : (c.toNat + 32).isValidChar := Or.inl (by omega)
    have ht : (Char.ofNat (c.toNat + 32)).toNat = c.toNat + 32 := toNat_ofNat_valid _ hv
    rw [if_neg]
    intro hc
    have h1 : ('A' : Char).toNat ≤ (Char.ofNat (c.toNat + 32)).toNat := hc.1
    have h2 : (Char.ofNat (c.toNat + 32)).toNat ≤ ('Z' : Char).toNat := hc.2
    omega
  · rw [if_neg h, if_neg h]

theorem normColChar_eq (c : Char) :
    normColChar c = if lowerChar c = ' ' ∨ lowerChar c = '-' then '_' else lowerChar c := rfl

theorem normColChar_idem (c : Char) : normColChar (normColChar c) = normColChar c := by
  rw [normColChar_eq c]
  by_cases h : lowerChar c = ' ' ∨ lowerChar c = '-'
  · rw [if_pos h]
    decide
  · rw [if_neg h, normColChar_eq, lowerChar_idem, if_neg h]

theorem normalizeColName_idem (s : String) :
    normalizeColName (normalizeColName s) = normalizeColName s := by
  unfold normalizeColName
  simp only [List.map_map]
  congr 1
  exact List.map_congr_left (fun c _ => normColChar_idem c)

theorem dropDupAux_mem_not_seen :
    ∀ (l seen : List (List Cell)) (r : List Cell), r ∈ dropDupAux seen l → r ∉ seen := by
  intro l
  induction l with
  | nil => intro seen r h; simp [dropDupAux] at h
  | cons a as ih =>
    intro seen r h
    rw [dropDupAux] at h
    by_cases ha : a ∈ seen
    · rw [if_pos ha] at h
      exact ih seen r h
    · rw [if_neg ha] at h
      rcases List.mem_cons.mp h with h | h
      · exact h ▸ ha
      · intro hs
        exact ih (a :: seen) r h (List.mem_cons_of_mem a hs)

theorem dropDupAux_nodup : ∀ (l seen : List (List Cell)), (dropDupAux seen l).Nodup := by
  intro l
  induction l with
  | nil => intro seen; simp [dropDupAux]
  | cons a as ih =>
    intro seen
    rw [dropDupAux]
    by_cases ha : a ∈ seen
    · rw [if_pos ha]; exact ih seen
    · rw [if_neg ha]
      refine List.nodup_cons.mpr ⟨?_, ih (a :: seen)⟩
      intro hmem
      exact dropDupAux_mem_not_seen as (a :: seen) a hmem (List.mem_cons_self a seen)

theorem dropDupAux_subset : ∀ (l seen : List (List Cell)), dropDupAux seen l ⊆ l := by
  intro l
  induction l with
  | nil => intro seen; simp [dropDupAux]
  | cons a as ih =>
    intro seen r hr
    rw [dropDupAux] at hr
    by_cases ha : a ∈ seen
    · rw [if_pos ha] at hr
      exact List.mem_cons_of_mem a (ih seen hr)
    · rw [if_neg ha] at hr
      rcases List.mem_cons.mp hr with h | h
      · exact h ▸ List.mem_cons_self a as
      · exact List.mem_cons_of_mem a (ih (a :: seen) h)

theorem dropDupAux_eq_self :
    ∀ (l seen : List (List Cell)), l.Nodup → (∀ r ∈ l, r ∉ seen) →
      dropDupAux seen l = l := by
  intro l
  induction l with
  | nil => intro seen _ _; rfl
  | cons a as ih =>
    intro seen hnd hns
    rw [dropDupAux, if_neg (hns a (List.mem_cons_self a as))]
    congr 1
    refine ih (a :: seen) (List.nodup_cons.mp hnd).2 ?_
    intro r hr
    intro hmem
    rcases List.mem_cons.mp hmem with h | h
    · exact (List.nodup_cons.mp hnd).1 (h ▸ hr)
    · exact hns r (List.mem_cons_of_mem a hr) h

theorem dropDuplicates_nodup (l : List (List Cell)) : (dropDuplicates l).Nodup :=
  dropDupAux_nodup l []

/-! ## Claim C4 -/

/-- C4: `normalize("human") = "Homo sapiens"` (direct alias hit),
`normalize("H. Sapiens") = "Homo sapiens"`, `normalize("Mus_musculus") =
"Mus musculus"`, `normalize("") = ""` (empty input passes through), and
the unrecognized `"xenopus laevis"` falls back to title-case
`"Xenopus Laevis"`. -/
theorem c4_normalize_examples :
    normalize_organism_name "human" = "Homo sapiens" ∧
    normalize_organism_name "H. Sapiens" = "Homo sapiens" ∧
    normalize_organism_name "Mus_musculus" = "Mus musculus" ∧
    normalize_organism_name "" = "" ∧
    normalize_organism_name "xenopus laevis" = "Xenopus Laevis" :=
  ⟨by decide, by decide, by decide, by decide, by decide⟩

/-! ## Claim C8 -/

/-- C8: the first recommendation of `generate_quality_recommendations` is
selected by completion-rate thresholds with the boundary included
(`rate >= threshold`): `≥ 95` excellent, `≥ 85` good, `≥ 70` moderate,
otherwise poor — so a report with completion rate 96 begins with the
excellent message and one with 60 begins with the poor message. -/
theorem c8_recommendation_tiers (r : MissingReport) :
    (generate_quality_recommendations r).head? =
      some (if r.completion_rate ≥ 95 then msgExcellent
            else if r.completion_rate ≥ 85 then msgGood
            else if r.completion_rate ≥ 70 then msgModerate
            else msgPoor) := rfl

/-! ## Claim C5 -/

/-- C5 counterexample: on the claim's input the parser produces no `title`
column at all — the field key is `"title "` with a trailing space, because
`parts[0].replace('!Sample_', '').lower()` is never stripped and
`!Sample_title = A` splits at `=` leaving `!Sample_title ` on the left.
So the parsed table has `sample_id` values `GSM1`, `GSM2` but its `title`
values are not `A`, `B` (there is no `title` column). -/
theorem c5_counterexample :
    parse_soft c5_input = some (c5_table, none) ∧
    "title" ∉ c5_table.cols ∧
    c5_table.getCol "title" = [] ∧
    c5_table.getCol "title" ≠ [some "A", some "B"] := by decide

/-- C5 (amended): parsing the claim's `.soft` file yields exactly 2
records with `sample_id` values `GSM1`, `GSM2`, whose values `A`, `B` are
stored under the field key `"title "` (the key keeps the space that stood
before `=`; keys are not trimmed), with expression result `None`; and a
`^SAMPLE` marker line flushes the in-progress record (if non-empty) and
starts a new record keyed by the id after `=`. -/
theorem c5_soft_parse_amended :
    parse_soft c5_input = some (c5_table, none) ∧
    c5_table.rows.length = 2 ∧
    c5_table.getCol "sample_id" = [some "GSM1", some "GSM2"] ∧
    c5_table.getCol "title " = [some "A", some "B"] ∧
    (∀ (ls : List (List Char)) (acc : List Record) (cur : Record) (inS : Bool),
      softGo ("^SAMPLE = GSM2".data :: ls) acc cur inS =
        softGo ls (softFlush acc cur) [("sample_id", "GSM2")] true) :=
  ⟨by decide, by decide, by decide, by decide, fun _ _ _ _ => rfl⟩

/-! ## Claim C1 -/

theorem c1_counterexample :
    "sample_id" ∈ (clean_metadata c1_dup_table).cols ∧
    (clean_metadata c1_dup_table).getCol "sample_id" = [some "GSM1", some "GSM1"] ∧
    ¬ ((clean_metadata c1_dup_table).getCol "sample_id").Nodup := by decide

/-- C1 (amended): after `clean_metadata` the rows are pairwise distinct
(duplicate removal is exact-row deduplication), and a `sample_id` column
present in the input (modulo column-name normalization) remains present;
`sample_id` values themselves need not be unique when rows differ in other
fields. -/
theorem c1_rows_dedup_and_sample_id_preserved (t : Table) :
    (clean_metadata t).rows.Nodup ∧
    ("sample_id" ∈ t.cols.map normalizeColName →
      "sample_id" ∈ (clean_metadata t).cols) :=
  ⟨dropDupAux_nodup _ [], fun h => h⟩

theorem c1_witness :
    (clean_metadata c1_witness_table).rows.Nodup ∧
    "sample_id" ∈ (clean_metadata c1_witness_table).cols :=
  ⟨(c1_rows_dedup_and_sample_id_preserved c1_witness_table).1,
   (c1_rows_dedup_and_sample_id_preserved c1_witness_table).2 (by decide)⟩

/-! ## Claim C10 -/

theorem report_missing_by_column (meta : Table) (expr : Option Table) :
    (generate_missing_data_report meta expr).missing_by_column =
      if meta.isEmpty then [] else colMissing meta := by
  by_cases h : meta.isEmpty
  · simp [generate_missing_data_report, h]
  · simp [generate_missing_data_report, h]

theorem colMissing_fst_mem (t : Table) : ∀ p ∈ colMissing t, p.1 ∈ t.cols := by
  intro p hp
  unfold colMissing at hp
  rcases List.mem_map.mp hp with ⟨i, hi, rfl⟩
  have hilt : i < t.cols.length := List.mem_range.mp hi
  show t.cols.getD i "" ∈ t.cols
  simp only [List.getD_eq_getElem?_getD, List.getElem?_eq_getElem hilt, Option.getD_some]
  exact List.getElem_mem hilt

/-- C10: the per-column aggregate `missing_by_column` that drives the
columns-with-missing-data and organism-curation recommendations is built
from metadata columns only: it is unchanged by any expression table, and
every column it (or `high_missing_columns`, the list the recommendation
message prints) names is a metadata column. -/
theorem c10_recommendation_columns_metadata_only (meta : Table) (expr : Option Table) :
    (generate_missing_data_report meta expr).missing_by_column =
      (generate_missing_data_report meta none).missing_by_column ∧
    (∀ p ∈ (generate_missing_data_report meta expr).missing_by_column, p.1 ∈ meta.cols) ∧
    (∀ c ∈ high_missing_columns (generate_missing_data_report meta expr), c ∈ meta.cols) := by
  have hb := report_missing_by_column meta expr
  have hb0 := report_missing_by_column meta none
  have hmem : ∀ p ∈ (generate_missing_data_report meta expr).missing_by_column,
      p.1 ∈ meta.cols := by
    intro p hp
    rw [hb] at hp
    by_cases h : meta.isEmpty
    · rw [if_pos h] at hp
      exact absurd hp (List.not_mem_nil p)
    · rw [if_neg h] at hp
      exact colMissing_fst_mem meta p hp
  refine ⟨hb.trans hb0.symm, hmem, ?_⟩
  intro c hc
  unfold high_missing_columns at hc
  rcases List.mem_map.mp hc with ⟨p, hp, rfl⟩
  exact hmem p (List.mem_of_mem_filter hp)

/-! ## Claim C7 -/

theorem tableTotal_eq_zero_iff (t : Table) : tableTotal t = 0 ↔ t.isEmpty = true := by
  unfold tableTotal Table.isEmpty
  rw [Nat.mul_eq_zero, Bool.or_eq_true, decide_eq_true_eq, decide_eq_true_eq]

theorem tableMissing_eq_zero (t : Table) (hwf : t.wfRows = true) (h : t.isEmpty = true) :
    tableMissing t = 0 := by
  unfold Table.isEmpty at h
  rw [Bool.or_eq_true, decide_eq_true_eq, decide_eq_true_eq] at h
  unfold tableMissing
  rcases h with h | h
  · rw [List.length_eq_zero] at h
    simp [h]
  · unfold Table.wfRows at hwf
    rw [List.all_eq_true] at hwf
    apply List.sum_eq_zero
    intro x hx
    rcases List.mem_map.mp hx with ⟨r, hr, rfl⟩
    have hlen := hwf r hr
    rw [decide_eq_true_eq] at hlen
    have hr0 : r = [] := List.length_eq_zero.mp (by rw [hlen, h])
    simp [hr0]

theorem report_metadata_missing (meta : Table) (expr : Option Table) :
    (generate_missing_data_report meta expr).metadata_missing =
      if meta.isEmpty then none
      else some
        { total_cells := tableTotal meta
          missing_cells := tableMissing meta
          missing_percentage :=
            if tableTotal meta > 0 then
              (tableMissing meta : ℚ) / (tableTotal meta : ℚ) * 100
            else 0
          by_column := colMissing meta } := by
  by_cases h : meta.isEmpty
  · simp [generate_missing_data_report, h]
  · simp [generate_missing_data_report, h]

theorem table_nonempty_facts (t : Table) (h : ¬ t.isEmpty = true) :
    ¬ t.rows = [] ∧ ¬ t.cols = [] := by
  rw [Bool.not_eq_true] at h
  unfold Table.isEmpty at h
  rw [Bool.or_eq_false_iff, decide_eq_false_iff_not, decide_eq_false_iff_not] at h
  exact ⟨fun hc => h.1 (by simp [hc]), fun hc => h.2 (by simp [hc])⟩

theorem table_empty_cases (t : Table) (h : t.isEmpty = true) :
    t.rows = [] ∨ t.cols = [] := by
  unfold Table.isEmpty at h
  rw [Bool.or_eq_true, decide_eq_true_eq, decide_eq_true_eq] at h
  rcases h with h | h
  · exact Or.inl (List.length_eq_zero.mp h)
  · exact Or.inr (List.length_eq_zero.mp h)

/-- C7: in the report of a metadata table with `R` rows, `C` columns and
`M` missing cells, `missing_percentage = M/(R*C)*100` (read as 0 when
`R*C = 0`, where the sub-dict is absent), and the aggregate
`completion_rate` is (combined total − combined missing)/combined total ×
100 over both tables, 0 when the combined total is 0. -/
theorem c7_missing_report_formulas (meta : Table) (expr : Option Table)
    (hm : meta.wfRows = true) (he : Option.all Table.wfRows expr = true) :
    (Option.elim (generate_missing_data_report meta expr).metadata_missing 0
        MissingInfo.missing_percentage =
      if tableTotal meta = 0 then 0
      else (tableMissing meta : ℚ) / (tableTotal meta : ℚ) * 100) ∧
    ((generate_missing_data_report meta expr).completion_rate =
      if tableTotal meta + Option.elim expr 0 tableTotal = 0 then 0
      else (((tableTotal meta + Option.elim expr 0 tableTotal : ℕ) : ℚ) -
            ((tableMissing meta + Option.elim expr 0 tableMissing : ℕ) : ℚ)) /
           ((tableTotal meta + Option.elim expr 0 tableTotal : ℕ) : ℚ) * 100) := by
  constructor
  · rw [report_metadata_missing meta expr]
    by_cases h : meta.isEmpty
    · rw [if_pos h, if_pos ((tableTotal_eq_zero_iff meta).mpr h)]
      rfl
    · have hz : ¬ tableTotal meta = 0 := fun hc => h ((tableTotal_eq_zero_iff meta).mp hc)
      rw [if_neg h, if_neg hz]
      simp only [Option.elim_some]
      rw [if_pos (Nat.pos_of_ne_zero hz)]
  · rcases expr with _ | e
    · by_cases h : meta.isEmpty
      · have h0 : tableTotal meta = 0 := (tableTotal_eq_zero_iff meta).mpr h
        have hm0 : tableMissing meta = 0 := tableMissing_eq_zero meta hm h
        simp [generate_missing_data_report, h, h0, hm0]
      · have hf : meta.isEmpty = false := by rwa [Bool.not_eq_true] at h
        have hz : ¬ tableTotal meta = 0 := fun hc2 => h ((tableTotal_eq_zero_iff meta).mp hc2)
        simp [generate_missing_data_report, hf, hz, Nat.pos_of_ne_zero hz]
    · have hewf : e.wfRows = true := he
      by_cases h : meta.isEmpty <;> by_cases h2 : e.isEmpty
      · have h0 : tableTotal meta = 0 := (tableTotal_eq_zero_iff meta).mpr h
        have hm0 : tableMissing meta = 0 := tableMissing_eq_zero meta hm h
        have h20 : tableTotal e = 0 := (tableTotal_eq_zero_iff e).mpr h2
        have h2m0 : tableMissing e = 0 := tableMissing_eq_zero e hewf h2
        simp [generate_missing_data_report, h, h2, h0, hm0, h20, h2m0]
      · have h0 : tableTotal meta = 0 := (tableTotal_eq_zero_iff meta).mpr h
        have hm0 : tableMissing meta = 0 := tableMissing_eq_zero meta hm h
        have hf2 : e.isEmpty = false := by rwa [Bool.not_eq_true] at h2
        have h2z : ¬ tableTotal e = 0 := fun hcc => h2 ((tableTotal_eq_zero_iff e).mp hcc)
        simp [generate_missing_data_report, h, hf2, h0, hm0, h2z,
          Nat.pos_of_ne_zero h2z]
      · have hf : meta.isEmpty = false := by rwa [Bool.not_eq_true] at h
        have hz : ¬ tableTotal meta = 0 := fun hcc => h ((tableTotal_eq_zero_iff meta).mp hcc)
        have h20 : tableTotal e = 0 := (tableTotal_eq_zero_iff e).mpr h2
        have h2m0 : tableMissing e = 0 := tableMissing_eq_zero e hewf h2
        simp [generate_missing_data_report, hf, h2, h20, h2m0, hz,
          Nat.pos_of_ne_zero hz]
      · have hf : meta.isEmpty = false := by rwa [Bool.not_eq_true] at h
        have hf2 : e.isEmpty = false := by rwa [Bool.not_eq_true] at h2
        have hz : ¬ tableTotal meta = 0 := fun hcc => h ((tableTotal_eq_zero_iff meta).mp hcc)
        have h2z : ¬ tableTotal e = 0 := fun hcc => h2 ((tableTotal_eq_zero_iff e).mp hcc)
        have hsz : ¬ tableTotal meta + tableTotal e = 0 := by omega
        simp [generate_missing_data_report, hf, hf2, hsz,
          Nat.pos_of_ne_zero hsz]

theorem c7_witness :
    (Option.elim (generate_missing_data_report c7_meta (some c7_expr)).metadata_missing 0
        MissingInfo.missing_percentage =
      if tableTotal c7_meta = 0 then 0
      else (tableMissing c7_meta : ℚ) / (tableTotal c7_meta : ℚ) * 100) ∧
    ((generate_missing_data_report c7_meta (some c7_expr)).completion_rate =
      if tableTotal c7_meta + Option.elim (some c7_expr) 0 tableTotal = 0 then 0
      else (((tableTotal c7_meta + Option.elim (some c7_expr) 0 tableTotal : ℕ) : ℚ) -
            ((tableMissing c7_meta + Option.elim (some c7_expr) 0 tableMissing : ℕ) : ℚ)) /
           ((tableTotal c7_meta + Option.elim (some c7_expr) 0 tableTotal : ℕ) : ℚ) * 100) :=
  c7_missing_report_formulas c7_meta (some c7_expr) (by decide) (by decide)

/-! ## Claim C9 -/

/-- C9: for a Shape-B (series) object whose expression-data extraction
raises, and likewise a Shape-A (dataset) object whose expression block
extraction fails, extraction does not abort: the full metadata table is
still returned with the expression result `None`.  (The well-formedness
hypotheses keep the objects inside the modelled fragment: every metadata
value list is non-empty, so `.get(key, [''])[0]` in the metadata part
never raises.) -/
theorem c9_expression_failure_keeps_metadata (g : GSE) (d : GDS) (e₁ e₂ : String)
    (hg : g.gsms.all (fun p => geoMetaWf p.2.metadata) = true)
    (hd : geoMetaWf d.metadata = true)
    (hds : d.subsets.all (fun p => geoMetaWf p.2.metadata) = true)
    (h1 : gse_expression_attempt g = Except.error e₁)
    (h2 : gds_expression_attempt d = Except.error e₂) :
    extract_gse_data g = (gse_metadata g, none) ∧
    extract_gds_data d = (gds_metadata d, none) := by
  unfold extract_gse_data extract_gds_data
  rw [h1, h2]
  exact ⟨rfl, rfl⟩

theorem c9_witness :
    extract_gse_data c9_gse = (gse_metadata c9_gse, none) ∧
    extract_gds_data c9_gds = (gds_metadata c9_gds, none) :=
  c9_expression_failure_keeps_metadata c9_gse c9_gds "pivot failed" "table access failed"
    (by decide) (by decide) (by decide) rfl rfl

/-! ## Claim C3 -/

theorem firstPatternMatch_eq_find? (l : List (List RAlt × String)) (c : String) :
    firstPatternMatch l c = (l.find? (fun p => regexSearch p.1 c)).map Prod.snd := by
  induction l with
  | nil => rfl
  | cons a as ih =>
    obtain ⟨p, nm⟩ := a
    rw [firstPatternMatch]
    by_cases h : regexSearch p c
    · simp [List.find?, h]
    · have hf : regexSearch p c = false := by rwa [Bool.not_eq_true] at h
      simp [List.find?, hf, ih, if_neg h]

/-- C3: for every non-empty input string, `normalize_organism_name`
resolves in this precedence order: an exact hit of the cleaned lowercased
string in the alias mapping wins; otherwise the first pattern (in declared
order) whose regex search succeeds on the cleaned string decides;
otherwise the result is the particle-aware title-casing of the original
(non-cleaned) input. -/
theorem c3_normalize_precedence (s : String) (h : s ≠ "") :
    (∀ v, List.lookup (clean_organism s) organism_mappings = some v →
      normalize_organism_name s = v) ∧
    (List.lookup (clean_organism s) organism_mappings = none →
      ∀ p, List.find? (fun q => regexSearch q.1 (clean_organism s)) organism_patterns
          = some p →
        normalize_organism_name s = p.2) ∧
    (List.lookup (clean_organism s) organism_mappings = none →
      List.find? (fun q => regexSearch q.1 (clean_organism s)) organism_patterns = none →
      normalize_organism_name s = capitalize_organism_name s) := by
  have hd : normalize_organism_name s =
      match List.lookup (clean_organism s) organism_mappings with
      | some v => v
      | none =>
        match firstPatternMatch organism_patterns (clean_organism s) with
        | some v => v
        | none => capitalize_organism_name s := by
    unfold normalize_organism_name
    rw [if_neg h]
  refine ⟨?_, ?_, ?_⟩
  · intro v hv
    rw [hd, hv]
  · intro hn p hp
    rw [hd, hn]
    simp only [firstPatternMatch_eq_find?, hp]
    rfl
  · intro hn hf
    rw [hd, hn]
    simp only [firstPatternMatch_eq_find?, hf, Option.map_none']

theorem c3_witness :
    normalize_organism_name "human" = "Homo sapiens" ∧
    normalize_organism_name "zzz qqq" = capitalize_organism_name "zzz qqq" :=
  ⟨(c3_normalize_precedence "human" (by decide)).1 "Homo sapiens" (by decide),
   (c3_normalize_precedence "zzz qqq" (by decide)).2.2 (by decide) (by decide)⟩

/-! ## Claim C6 -/

theorem intercalate_singleton (sep p : List Char) : List.intercalate sep [p] = p := by
  simp [List.intercalate]

theorem intercalate_cons₂ (sep p q : List Char) (qs : List (List Char)) :
    List.intercalate sep (p :: q :: qs) = p ++ sep ++ List.intercalate sep (q :: qs) := by
  simp [List.intercalate, List.intersperse]

theorem splitOnChar_ne_nil (sep : Char) (l : List Char) : splitOnChar sep l ≠ [] := by
  cases l with
  | nil => simp [splitOnChar]
  | cons c cs =>
    rw [splitOnChar]
    rcases hs : splitOnChar sep cs with _ | ⟨r, rs⟩
    · simp
    · by_cases h : c = sep <;> simp [h]

theorem splitOnChar_no_sep (sep : Char) (l : List Char) (h : ∀ c ∈ l, c ≠ sep) :
    splitOnChar sep l = [l] := by
  induction l with
  | nil => rfl
  | cons c cs ih =>
    have hc := h c (List.mem_cons_self c cs)
    have ih' := ih (fun x hx => h x (List.mem_cons_of_mem c hx))
    rw [splitOnChar, ih']
    simp [hc]

theorem splitOnChar_append (sep : Char) (xs ys : List Char) (h : ∀ c ∈ xs, c ≠ sep) :
    splitOnChar sep (xs ++ sep :: ys) = xs :: splitOnChar sep ys := by
  induction xs with
  | nil =>
    simp only [List.nil_append]
    rw [splitOnChar]
    rcases hs : splitOnChar sep ys with _ | ⟨r, rs⟩
    · exact absurd hs (splitOnChar_ne_nil sep ys)
    · simp
  | cons x xs ih =>
    have hx := h x (List.mem_cons_self x xs)
    have ih' := ih (fun c hc => h c (List.mem_cons_of_mem x hc))
    simp only [List.cons_append]
    rw [splitOnChar, ih']
    simp [hx]

theorem splitOnChar_intercalate (sep : Char) (parts : List (List Char))
    (hne : parts ≠ []) (h : ∀ p ∈ parts, ∀ c ∈ p, c ≠ sep) :
    splitOnChar sep (List.intercalate [sep] parts) = parts := by
  induction parts with
  | nil => exact absurd rfl hne
  | cons p ps ih =>
    cases ps with
    | nil =>
      rw [intercalate_singleton]
      exact splitOnChar_no_sep sep p (h p (List.mem_cons_self p []))
    | cons q qs =>
      rw [intercalate_cons₂]
      rw [List.append_assoc, List.singleton_append]
      rw [splitOnChar_append sep p _ (h p (List.mem_cons_self p (q :: qs)))]
      rw [ih (by simp) (fun r hr c hc => h r (List.mem_cons_of_mem p hr) c hc)]

theorem mem_intercalate_sep (sep : Char) (parts : List (List Char)) (x : Char)
    (hx : x ∈ List.intercalate [sep] parts) : x = sep ∨ ∃ p ∈ parts, x ∈ p := by
  induction parts with
  | nil => simp [List.intercalate] at hx
  | cons p ps ih =>
    cases ps with
    | nil =>
      rw [intercalate_singleton] at hx
      exact Or.inr ⟨p, List.mem_cons_self p [], hx⟩
    | cons q qs =>
      rw [intercalate_cons₂] at hx
      rcases List.mem_append.mp hx with h1 | h1
      · rcases List.mem_append.mp h1 with h2 | h2
        · exact Or.inr ⟨p, List.mem_cons_self p (q :: qs), h2⟩
        · exact Or.inl (List.mem_singleton.mp h2)
      · rcases ih h1 with h2 | ⟨r, hr, hxr⟩
        · exact Or.inl h2
        · exact Or.inr ⟨r, List.mem_cons_of_mem p hr, hxr⟩

/-- C6: a `.txt` file with header `ProbeID S1 S2` (no `sample_id` column,
no `gsm` in any column name) and two tab-separated data rows parses as an
expression matrix indexed by the `ProbeID` column with sample columns
`S1`, `S2`, together with a synthesized metadata table of 2 records with
`sample_id` values `S1`, `S2` and `source = "uploaded_file"`. -/
theorem c6_txt_expression_parse (a b c d e f : List Char)
    (h : ∀ x ∈ [a, b, c, d, e, f], ∀ ch ∈ x, ch ≠ '\t' ∧ ch ≠ '\n') :
    parse_txt (mkTxtContent [["ProbeID".data, "S1".data, "S2".data],
                             [a, b, c], [d, e, f]]) =
      some ({ cols := ["sample_id", "source"],
              rows := [[some "S1", some "uploaded_file"],
                       [some "S2", some "uploaded_file"]] },
        some { indexName := some "ProbeID"
               index := [String.mk a, String.mk d]
               cols := ["S1", "S2"]
               rows := [[String.mk b, String.mk c], [String.mk e, String.mk f]] }) := by
  have hL2 : splitOnChar '\t' (List.intercalate ['\t'] [a, b, c]) = [a, b, c] := by
    refine splitOnChar_intercalate '\t' [a, b, c] (by simp) ?_
    intro p hp ch hch
    simp only [List.mem_cons, List.not_mem_nil, or_false] at hp
    rcases hp with rfl | rfl | rfl
    · exact (h p (by simp) ch hch).1
    · exact (h p (by simp) ch hch).1
    · exact (h p (by simp) ch hch).1
  have hL3 : splitOnChar '\t' (List.intercalate ['\t'] [d, e, f]) = [d, e, f] := by
    refine splitOnChar_intercalate '\t' [d, e, f] (by simp) ?_
    intro p hp ch hch
    simp only [List.mem_cons, List.not_mem_nil, or_false] at hp
    rcases hp with rfl | rfl | rfl
    · exact (h p (by simp) ch hch).1
    · exact (h p (by simp) ch hch).1
    · exact (h p (by simp) ch hch).1
  have hdata : (mkTxtContent [["ProbeID".data, "S1".data, "S2".data],
      [a, b, c], [d, e, f]]).data =
      List.intercalate ['\n']
        [List.intercalate ['\t'] ["ProbeID".data, "S1".data, "S2".data],
         List.intercalate ['\t'] [a, b, c], List.intercalate ['\t'] [d, e, f]] := by
    unfold mkTxtContent
    rw [List.map_cons, List.map_cons, List.map_cons, List.map_nil]
  have hlines : splitOnChar '\n'
      (List.intercalate ['\n']
        [List.intercalate ['\t'] ["ProbeID".data, "S1".data, "S2".data],
         List.intercalate ['\t'] [a, b, c], List.intercalate ['\t'] [d, e, f]]) =
      [List.intercalate ['\t'] ["ProbeID".data, "S1".data, "S2".data],
       List.intercalate ['\t'] [a, b, c], List.intercalate ['\t'] [d, e, f]] := by
    refine splitOnChar_intercalate '\n' _ (by simp) ?_
    intro p hp ch hch
    simp only [List.mem_cons, List.not_mem_nil, or_false] at hp
    rcases hp with rfl | rfl | rfl
    · revert ch
      decide
    · rcases mem_intercalate_sep '\t' [a, b, c] ch hch with h2 | ⟨r, hr, hxr⟩
      · subst h2
        decide
      · simp only [List.mem_cons, List.not_mem_nil, or_false] at hr
        rcases hr with rfl | rfl | rfl
        · exact (h r (by simp) ch hxr).2
        · exact (h r (by simp) ch hxr).2
        · exact (h r (by simp) ch hxr).2
    · rcases mem_intercalate_sep '\t' [d, e, f] ch hch with h2 | ⟨r, hr, hxr⟩
      · subst h2
        decide
      · simp only [List.mem_cons, List.not_mem_nil, or_false] at hr
        rcases hr with rfl | rfl | rfl
        · exact (h r (by simp) ch hxr).2
        · exact (h r (by simp) ch hxr).2
        · exact (h r (by simp) ch hxr).2
  have hne : (mkTxtContent [["ProbeID".data, "S1".data, "S2".data],
      [a, b, c], [d, e, f]]).data.isEmpty = false := by
    unfold mkTxtContent
    rw [List.map_cons, List.map_cons, List.map_cons, List.map_nil]
    rw [intercalate_cons₂]
    rfl
  unfold parse_txt read_csv_tab
  rw [hne]
  simp only [Bool.false_eq_true, if_false]
  rw [hdata, hlines]
  simp only [List.map_cons, List.map_nil, hL2, hL3]
  rw [show splitOnChar '\t' (List.intercalate ['\t'] ["ProbeID".data, "S1".data, "S2".data]) =
    ["ProbeID".data, "S1".data, "S2".data] from by decide]
  rfl

theorem c6_witness :
    parse_txt (mkTxtContent [["ProbeID".data, "S1".data, "S2".data],
        ["g1".data, "1.0".data, "2.0".data], ["g2".data, "3.5".data, "4.5".data]]) =
      some ({ cols := ["sample_id", "source"],
              rows := [[some "S1", some "uploaded_file"],
                       [some "S2", some "uploaded_file"]] },
        some { indexName := some "ProbeID"
               index := [String.mk "g1".data, String.mk "g2".data]
               cols := ["S1", "S2"]
               rows := [[String.mk "1.0".data, String.mk "2.0".data],
                        [String.mk "3.5".data, String.mk "4.5".data]] }) :=
  c6_txt_expression_parse "g1".data "1.0".data "2.0".data
    "g2".data "3.5".data "4.5".data (by decide)

/-! ## Claim C2 -/

theorem c2_counterexample :
    clean_metadata (clean_metadata c2_table) ≠ clean_metadata c2_table ∧
    clean_metadata c2_table = { cols := ["a"], rows := [[some "na"]] } ∧
    clean_metadata (clean_metadata c2_table) = { cols := ["a"], rows := [] } := by
  refine ⟨?_, by decide, by decide⟩
  decide

theorem collapseWSAux_idem (l : List Char) :
    ∀ b, collapseWSAux b (collapseWSAux b l) = collapseWSAux b l := by
  induction l with
  | nil => intro b; rfl
  | cons c cs ih =>
    intro b
    by_cases hws : isPyWs c
    · by_cases hb : b
      · subst hb
        simp only [collapseWSAux, hws, if_true]
        exact ih true
      · simp only [collapseWSAux, hws, if_true, if_neg hb]
        have hsp : isPyWs ' ' = true := by decide
        simp only [collapseWSAux, hsp, if_true]
        rw [ih true]
    · simp only [collapseWSAux, hws, Bool.false_eq_true, if_false]
      rw [ih false]

theorem mem_collapseWSAux (l : List Char) :
    ∀ b x, x ∈ collapseWSAux b l → x = ' ' ∨ (x ∈ l ∧ isPyWs x = false) := by
  induction l with
  | nil => intro b x hx; simp [collapseWSAux] at hx
  | cons c cs ih =>
    intro b x hx
    by_cases hws : isPyWs c
    · by_cases hb : b
      · subst hb
        simp only [collapseWSAux, hws, if_true] at hx
        rcases ih true x hx with h | ⟨hm, hw⟩
        · exact Or.inl h
        · exact Or.inr ⟨List.mem_cons_of_mem c hm, hw⟩
      · simp only [collapseWSAux, hws, if_true, if_neg hb] at hx
        rcases List.mem_cons.mp hx with h | h
        · exact Or.inl h
        · rcases ih true x h with h2 | ⟨hm, hw⟩
          · exact Or.inl h2
          · exact Or.inr ⟨List.mem_cons_of_mem c hm, hw⟩
    · simp only [collapseWSAux, hws, Bool.false_eq_true, if_false] at hx
      rcases List.mem_cons.mp hx with h | h
      · subst h
        exact Or.inr ⟨List.mem_cons_self x cs, by rwa [Bool.not_eq_true] at hws⟩
      · rcases ih false x h with h2 | ⟨hm, hw⟩
        · exact Or.inl h2
        · exact Or.inr ⟨List.mem_cons_of_mem c hm, hw⟩

theorem dropWhile_shape (p : Char → Bool) (l : List Char) :
    l.dropWhile p = [] ∨ ∃ c t, l.dropWhile p = c :: t ∧ p c = false := by
  induction l with
  | nil => exact Or.inl rfl
  | cons c cs ih =>
    by_cases h : p c
    · rw [List.dropWhile_cons, if_pos h]
      exact ih
    · rw [List.dropWhile_cons, if_neg h]
      exact Or.inr ⟨c, cs, rfl, by rwa [Bool.not_eq_true] at h⟩

theorem dropWhile_append_last (p : Char → Bool) (xs : List Char) (c : Char)
    (hc : p c = false) : ∃ m, (xs ++ [c]).dropWhile p = m ++ [c] := by
  induction xs with
  | nil =>
    refine ⟨[], ?_⟩
    rw [List.nil_append, List.dropWhile_cons, hc]
    simp
  | cons x xs ih =>
    by_cases hx : p x
    · rw [List.cons_append, List.dropWhile_cons, if_pos hx]
      exact ih
    · exact ⟨x :: xs, by rw [List.cons_append, List.dropWhile_cons, if_neg hx]⟩

theorem pyStrip_last (l : List Char) :
    pyStrip l = [] ∨ ∃ m d, pyStrip l = m ++ [d] ∧ isPyWs d = false := by
  unfold pyStrip
  rcases dropWhile_shape isPyWs (l.dropWhile isPyWs).reverse with h | ⟨c, t, hct, hc⟩
  · left
    rw [h]
    rfl
  · right
    exact ⟨t.reverse, c, by rw [hct, List.reverse_cons], hc⟩

theorem pyStrip_head (l : List Char) :
    pyStrip l = [] ∨ ∃ c t, pyStrip l = c :: t ∧ isPyWs c = false := by
  unfold pyStrip
  rcases dropWhile_shape isPyWs l with h | ⟨c, t, hct, hc⟩
  · left
    rw [h]
    rfl
  · right
    rw [hct, List.reverse_cons]
    obtain ⟨m, hm⟩ := dropWhile_append_last isPyWs t.reverse c hc
    rw [hm, List.reverse_append]
    exact ⟨c, m.reverse, rfl, hc⟩

theorem collapseWSAux_append_nonws (l : List Char) (d : Char) (hd : isPyWs d = false) :
    ∀ b, collapseWSAux b (l ++ [d]) = collapseWSAux b l ++ [d] := by
  induction l with
  | nil =>
    intro b
    simp [collapseWSAux, hd]
  | cons c cs ih =>
    intro b
    by_cases hws : isPyWs c
    · by_cases hb : b
      · subst hb
        simp only [List.cons_append, collapseWSAux, hws, if_true]
        exact ih true
      · simp only [List.cons_append, collapseWSAux, hws, if_true, if_neg hb, List.append_eq]
        rw [ih true]
    · simp only [List.cons_append, collapseWSAux, hws, Bool.false_eq_true, if_false,
        List.append_eq]
      rw [ih false]

theorem pyStrip_collapse_strip (l : List Char) :
    pyStrip (collapseWS (pyStrip l)) = collapseWS (pyStrip l) := by
  rcases pyStrip_head l with h0 | ⟨c, t, hct, hc⟩
  · rw [h0]
    rfl
  · rcases pyStrip_last l with h0 | ⟨m, d, hmd, hd⟩
    · rw [h0] at hct
      exact absurd hct (by simp)
    · have h1 : (collapseWS (pyStrip l)).dropWhile isPyWs = collapseWS (pyStrip l) := by
        conv_lhs => rw [hct]
        show (collapseWSAux false (c :: t)).dropWhile isPyWs = _
        simp only [collapseWSAux, hc, Bool.false_eq_true, if_false]
        rw [List.dropWhile_cons, if_neg (by rw [hc]; exact Bool.false_ne_true)]
        conv_rhs => rw [hct]
        simp only [collapseWS, collapseWSAux, hc, Bool.false_eq_true, if_false]
      have h2 : (collapseWS (pyStrip l)).reverse.dropWhile isPyWs =
          (collapseWS (pyStrip l)).reverse := by
        conv_lhs => rw [hmd]
        show (collapseWSAux false (m ++ [d])).reverse.dropWhile isPyWs = _
        rw [collapseWSAux_append_nonws m d hd false, List.reverse_append]
        simp only [List.reverse_cons, List.reverse_nil, List.nil_append, List.singleton_append]
        rw [List.dropWhile_cons, if_neg (by rw [hd]; exact Bool.false_ne_true)]
        conv_rhs => rw [hmd]
        show _ = (collapseWSAux false (m ++ [d])).reverse
        rw [collapseWSAux_append_nonws m d hd false, List.reverse_append]
        simp
      have hdef : pyStrip (collapseWS (pyStrip l)) =
          (((collapseWS (pyStrip l)).dropWhile isPyWs).reverse.dropWhile isPyWs).reverse := rfl
      rw [hdef, h1, h2, List.reverse_reverse]

theorem pyStrip_subset (l : List Char) : ∀ c ∈ pyStrip l, c ∈ l := by
  intro c hc
  unfold pyStrip at hc
  rw [List.mem_reverse] at hc
  have h1 : c ∈ (l.dropWhile isPyWs).reverse :=
    List.Sublist.mem hc (List.dropWhile_sublist _)
  rw [List.mem_reverse] at h1
  exact List.Sublist.mem h1 (List.dropWhile_sublist _)

theorem removeCtrl_eq_self (l : List Char) (h : ∀ c ∈ l, isCtrl c = false) :
    removeCtrl l = l := by
  unfold removeCtrl
  apply List.filter_eq_self.mpr
  intro a ha
  simp [h a ha]

theorem cleanData_eq_collapse (l : List Char) (h : ∀ c ∈ l, badCtrl c = false) :
    removeCtrl (collapseWS (pyStrip l)) = collapseWS (pyStrip l) := by
  apply removeCtrl_eq_self
  intro c hc
  rcases mem_collapseWSAux (pyStrip l) false c hc with rfl | ⟨hmem, hws⟩
  · decide
  · have hb := h c (pyStrip_subset l c hmem)
    unfold badCtrl at hb
    rcases Bool.and_eq_false_iff.mp hb with h1 | h1
    · exact h1
    · rw [Bool.not_eq_false'] at h1
      rw [h1] at hws
      exact absurd hws (by simp)

theorem cleanString_fixed (s : String) (h : ∀ c ∈ s.data, badCtrl c = false) :
    cleanString (cleanString s) = cleanString s := by
  unfold cleanString
  have hy := cleanData_eq_collapse s.data h
  show String.mk (removeCtrl (collapseWS (pyStrip (removeCtrl (collapseWS (pyStrip s.data)))))) = _
  rw [hy, pyStrip_collapse_strip s.data]
  rw [show collapseWS (collapseWS (pyStrip s.data)) = collapseWS (pyStrip s.data) from
    collapseWSAux_idem _ false]
  rw [hy]

theorem handleMissingCell_some (v : String) :
    handleMissingCell (some v) = if v ∈ missing_indicators then none else some v := rfl

theorem cellClean_some (v : String) :
    cellClean (some v) = if v ∈ missing_indicators then none else some (cleanString v) := by
  unfold cellClean
  rw [handleMissingCell_some]
  by_cases hv : v ∈ missing_indicators
  · rw [if_pos hv, if_pos hv]
    rfl
  · rw [if_neg hv, if_neg hv]
    rfl

theorem cellClean_idem (c : Cell) (h : cellOk c = true) :
    cellClean (cellClean c) = cellClean c := by
  rcases c with _ | v
  · rfl
  · unfold cellOk at h
    rw [Bool.and_eq_true, List.all_eq_true, Bool.or_eq_true] at h
    obtain ⟨hctl, hsent⟩ := h
    rw [cellClean_some v]
    by_cases hv : v ∈ missing_indicators
    · rw [if_pos hv]
      rfl
    · have hns : cleanString v ∉ missing_indicators := by
        rcases hsent with h1 | h1
        · exact absurd (of_decide_eq_true h1) hv
        · rw [Bool.not_eq_true', decide_eq_false_iff_not] at h1
          exact h1
      have hfix : cleanString (cleanString v) = cleanString v := by
        refine cleanString_fixed v ?_
        intro ch hch
        have := hctl ch hch
        rwa [Bool.not_eq_true'] at this
      rw [if_neg hv, cellClean_some (cleanString v), if_neg hns, hfix]

/-- C2 (amended): `clean_metadata` is idempotent on every table whose
string cells contain no control character outside the whitespace range
and whose non-sentinel string cells do not clean to a missing-value
sentinel; in general a second cleaning can differ (see
`c2_counterexample`: `" na "` cleans to the sentinel `"na"`, which only
the second pass nulls and drops). -/
theorem c2_clean_metadata_idem (t : Table)
    (h : ∀ r ∈ t.rows, ∀ c ∈ r, cellOk c = true) :
    clean_metadata (clean_metadata t) = clean_metadata t := by
  have hcols : ((t.cols.map normalizeColName).map normalizeColName) =
      t.cols.map normalizeColName := by
    rw [List.map_map]
    exact List.map_congr_left (fun s _ => normalizeColName_idem s)
  have hrowfix : ∀ r ∈ (clean_metadata t).rows, r.map cellClean = r := by
    intro r hr
    have hsub : r ∈ (t.rows.map (fun r => r.map cellClean)).filter (fun r => !rowAllNa r) :=
      dropDupAux_subset _ [] hr
    have hsub2 : r ∈ t.rows.map (fun r => r.map cellClean) := List.mem_of_mem_filter hsub
    rcases List.mem_map.mp hsub2 with ⟨r₀, hr₀, rfl⟩
    rw [List.map_map]
    refine List.map_congr_left ?_
    intro c hc
    exact cellClean_idem c (h r₀ hr₀ c hc)
  have hrows : (clean_metadata t).rows.map (fun r => r.map cellClean) =
      (clean_metadata t).rows := by
    apply List.map_congr_left ?_ |>.trans (List.map_id _)
    intro r hr
    exact hrowfix r hr
  have hfilter : ((clean_metadata t).rows.filter (fun r => !rowAllNa r)) =
      (clean_metadata t).rows := by
    apply List.filter_eq_self.mpr
    intro r hr
    have hsub : r ∈ (t.rows.map (fun r => r.map cellClean)).filter (fun r => !rowAllNa r) :=
      dropDupAux_subset _ [] hr
    have hp := (List.mem_filter.mp hsub).2
    exact hp
  have hdedup : dropDuplicates (clean_metadata t).rows = (clean_metadata t).rows :=
    dropDupAux_eq_self _ [] (dropDupAux_nodup _ []) (fun r _ hmem => (List.not_mem_nil r) hmem)
  show ({ cols := ((t.cols.map normalizeColName).map normalizeColName)
          rows := dropDuplicates
            (((clean_metadata t).rows.map (fun r => r.map cellClean)).filter
              (fun r => !rowAllNa r)) } : Table) = clean_metadata t
  rw [hcols, hrows, hfilter, hdedup]
  rfl

theorem c2_witness :
    clean_metadata (clean_metadata c2_ok_table) = clean_metadata c2_ok_table :=
  c2_clean_metadata_idem c2_ok_table (by decide)
